import Mathlib

/-!
Verification of the 2-D grid core (`src/grid.rs`) and the grid ingestion
routine (`src/util.rs::load_grid`) of the puzzle-solver repository.

Modelling conventions:
* `Vec<T>` is modelled as `List T`; `usize` as `Nat` (the machine values in
  this program are always far below `2^64`, and every place where Rust
  subtraction could underflow or an index could go out of range is modelled
  explicitly, see the comments on the individual definitions).
* A Rust function that can panic is modelled with an `Option` result where
  `none` means the panic (fatal abort); a function that returns a recoverable
  `Result`/`Option` keeps that structure in the model, with comments
  distinguishing the two where the Rust types differ.
* Iterators are modelled as the full (finite) list of items they yield.
-/

/-- Model of `Grid<T>`: flat row-major data plus cached width and height. -/
structure Grid (α : Type) where
  data : List α
  width : Nat
  height : Nat
deriving DecidableEq

/-- Model of `Grid::from_data(data, width)`.  The Rust code asserts
`data.len() % width == 0`; evaluating `data.len() % 0` is itself a fatal
remainder-by-zero in Rust, so `width = 0` always panics.  `none` models the
panic. -/
def Grid.from_data (data : List α) (width : Nat) : Option (Grid α) :=
  if width = 0 then none
  else if data.length % width = 0 then
    some { height := data.length / width, data := data, width := width }
  else none

/-- Model of `Grid::from_fn(width, height, func)`: the generator is invoked
for every coordinate in row-major order (y outer, x inner) and the results
are pushed onto the data vector in that order. -/
def Grid.from_fn (width height : Nat) (func : Nat → Nat → α) : Grid α :=
  { data := (List.range height).flatMap (fun y => (List.range width).map (fun x => func x y)),
    width := width, height := height }

/-- Model of `Grid::map(func)`. -/
def Grid.map (g : Grid α) (func : α → β) : Grid β :=
  { data := g.data.map func, width := g.width, height := g.height }

/-- Model of `Grid::get(pos)`.  The Rust function asserts that the position
is inside the grid and then indexes the data vector; `none` models the
assertion failure (a panic).  The in-bounds index is modelled with `getElem?`
so that the definition is total; for grids satisfying `Grid.Wf` the lookup
never misses. -/
def Grid.get (g : Grid α) (pos : Nat × Nat) : Option α :=
  if pos.1 < g.width ∧ pos.2 < g.height then g.data[g.width * pos.2 + pos.1]? else none

/-- Model of `Grid::try_get(pos)`: same bounds test as `get` but the
out-of-range outcome is a recoverable `None` handed back to the caller, not
a panic. -/
def Grid.try_get (g : Grid α) (pos : Nat × Nat) : Option α :=
  if pos.1 < g.width ∧ pos.2 < g.height then g.data[g.width * pos.2 + pos.1]? else none

/-- Helper modelling `slice[start..start+seg.len()].copy_from_slice(seg)`:
replace the segment of `l` starting at `s` by `seg`.  Faithful whenever
`s + seg.length ≤ l.length`, which holds at every use site below. -/
def setRange (l : List α) (s : Nat) (seg : List α) : List α :=
  l.take s ++ seg ++ l.drop (s + seg.length)

/-- Model of `Grid::padded(val, n)`: a fresh `(w+2n) × (h+2n)` buffer filled
with `val`, into which each source row is copied at offset `(n, n)`.  The
source grid is untouched (the model is pure, as is the borrow in Rust). -/
def Grid.padded (g : Grid α) (val : α) (n : Nat) : Grid α :=
  let new_w := g.width + 2 * n
  let new_h := g.height + 2 * n
  let init := List.replicate (new_w * new_h) val
  { data := (List.range g.height).foldl
      (fun acc y => setRange acc ((y + n) * new_w + n) ((g.data.drop (y * g.width)).take g.width))
      init,
    width := new_w, height := new_h }

/-- Fuel-driven model of Rust's `Iterator::step_by(k)` on a slice iterator:
yields the head, then skips `k - 1` elements, repeatedly.  Each step consumes
at least one element, so `l.length` fuel always suffices; the fuel only makes
the recursion structural. -/
def stepByAux : Nat → List α → Nat → List α
  | 0, _, _ => []
  | _ + 1, [], _ => []
  | fuel + 1, x :: xs, k => x :: stepByAux fuel (xs.drop (k - 1)) k

/-- The `content.iter().step_by(width)` of `Grid::col_iter`. -/
def stepBy (l : List α) (k : Nat) : List α :=
  stepByAux l.length l k

/-- Model of `Grid::col_iter(col)`.  The outer guard is the assertion
`col < width` (panic when it fails).  The middle guard models the `usize`
subtraction `data.len() - (width - col)`, which is a fatal overflow when
`width - col > data.len()`.  The inner guard is the slice-bounds check of
`&data[start..end]` (fatal when violated).  All three fatal outcomes are
`none`. -/
def Grid.col_iter (g : Grid α) (col : Nat) : Option (List α) :=
  if col < g.width then
    if g.width - col ≤ g.data.length then
      let e := g.data.length - (g.width - col) + 1
      if col ≤ e ∧ e ≤ g.data.length then
        some (stepBy ((g.data.take e).drop col) g.width)
      else none
    else none
  else none

/-- Model of `GridPoint<'grid, T>`.  The Rust value borrows its grid; the
model simply carries the grid value (the borrow is read-only). -/
structure GridPoint (α : Type) where
  index : Nat
  coords : Nat × Nat
  grid : Grid α
deriving DecidableEq

/-- Model of `Grid::points()`: one point per linear index, with coordinates
recovered by division and remainder.  (For `width = 0` the Rust `%`/`/`
would be fatal, but then `data.len() = 0` for every constructible grid and
the range below is empty.) -/
def Grid.points (g : Grid α) : List (GridPoint α) :=
  (List.range g.data.length).map
    (fun idx => { index := idx, coords := (idx % g.width, idx / g.width), grid := g })

/-- Model of `Grid::point(pos)`: asserts the position is in bounds (`none`
models the panic) and otherwise builds the point directly. -/
def Grid.point (g : Grid α) (pos : Nat × Nat) : Option (GridPoint α) :=
  if pos.1 < g.width ∧ pos.2 < g.height then
    some { coords := pos, index := pos.1 + pos.2 * g.width, grid := g }
  else none

/-- Model of the `Deref` impl on `GridPoint`: index into the owning grid's
data.  Rust would panic on an out-of-range index; that cannot happen for
points satisfying `GridPoint.Valid` below, and the model returns `none`
there. -/
def GridPoint.deref (p : GridPoint α) : Option α :=
  p.grid.data[p.index]?

/-- Model of `Grid::find(val)`: the points whose dereferenced value equals
`val`, in storage order. -/
def Grid.find [DecidableEq α] (g : Grid α) (val : α) : List (GridPoint α) :=
  g.points.filter (fun p => p.deref = some val)

/-- Model of `GridPoint::offset((dx, dy))`.  Each axis mirrors the Rust
code: a negative delta uses `checked_sub` on the coordinate (recoverable
`None` on underflow) and subtracts from the linear index; a non-negative
delta adds and then rejects coordinates past the edge.  `usize` addition
overflow (`checked_add`) cannot occur in the unbounded model; the index
updates match the Rust `index -= dx` / `index += dx` arithmetic, which for
valid points never underflows. -/
def GridPoint.offset (p : GridPoint α) (d : Int × Int) : Option (GridPoint α) :=
  match (if d.1 < 0 then
           (if d.1.natAbs ≤ p.coords.1
            then some (p.coords.1 - d.1.natAbs, p.index - d.1.natAbs)
            else none)
         else
           (if p.coords.1 + d.1.toNat < p.grid.width
            then some (p.coords.1 + d.1.toNat, p.index + d.1.toNat)
            else none)) with
  | none => none
  | some (x, i1) =>
    match (if d.2 < 0 then
             (if d.2.natAbs ≤ p.coords.2
              then some (p.coords.2 - d.2.natAbs, i1 - p.grid.width * d.2.natAbs)
              else none)
           else
             (if p.coords.2 + d.2.toNat < p.grid.height
              then some (p.coords.2 + d.2.toNat, i1 + p.grid.width * d.2.toNat)
              else none)) with
    | none => none
    | some (y, i2) => some { index := i2, coords := (x, y), grid := p.grid }

/-- Model of `GridPoint::left()`. -/
def GridPoint.left (p : GridPoint α) : Option (GridPoint α) :=
  if 0 < p.coords.1 then
    some { index := p.index - 1, coords := (p.coords.1 - 1, p.coords.2), grid := p.grid }
  else none

/-- Model of `GridPoint::right()`.  The Rust comparison is against
`width - 1` in `usize`; for `width = 0` that subtraction is a fatal
underflow in a debug build, but no point on a `width = 0` grid is reachable,
and saturating `Nat` subtraction makes the comparison false there. -/
def GridPoint.right (p : GridPoint α) : Option (GridPoint α) :=
  if p.coords.1 < p.grid.width - 1 then
    some { index := p.index + 1, coords := (p.coords.1 + 1, p.coords.2), grid := p.grid }
  else none

/-- Model of `GridPoint::up()`. -/
def GridPoint.up (p : GridPoint α) : Option (GridPoint α) :=
  if 0 < p.coords.2 then
    some { index := p.index - p.grid.width, coords := (p.coords.1, p.coords.2 - 1), grid := p.grid }
  else none

/-- Model of `GridPoint::down()` (same `height - 1` caveat as `right`). -/
def GridPoint.down (p : GridPoint α) : Option (GridPoint α) :=
  if p.coords.2 < p.grid.height - 1 then
    some { index := p.index + p.grid.width, coords := (p.coords.1, p.coords.2 + 1), grid := p.grid }
  else none

/-- Fuel-driven unfolding of the `GridPointWalkRow { right: false }`
iterator: repeatedly step `left` until it yields `None`.  `left` decreases
the x coordinate by exactly one and fails at `x = 0`, so `p.coords.1` fuel
is exactly enough; the fuel only makes the recursion structural. -/
def walkLeftAux : Nat → GridPoint α → List (GridPoint α)
  | 0, _ => []
  | fuel + 1, p =>
    match p.left with
    | none => []
    | some q => q :: walkLeftAux fuel q

/-- Model of `GridPoint::walk_left()` as the list of points the iterator
yields. -/
def GridPoint.walk_left (p : GridPoint α) : List (GridPoint α) :=
  walkLeftAux p.coords.1 p

/-- Fuel-driven unfolding of the `GridPointWalkRow { right: true }`
iterator: `right` increases x by one and fails at `x ≥ width - 1`, so
`width - x` fuel is always enough. -/
def walkRightAux : Nat → GridPoint α → List (GridPoint α)
  | 0, _ => []
  | fuel + 1, p =>
    match p.right with
    | none => []
    | some q => q :: walkRightAux fuel q

/-- Model of `GridPoint::walk_right()`. -/
def GridPoint.walk_right (p : GridPoint α) : List (GridPoint α) :=
  walkRightAux (p.grid.width - p.coords.1) p

/-- Fuel-driven unfolding of the upwards column walk. -/
def walkUpAux : Nat → GridPoint α → List (GridPoint α)
  | 0, _ => []
  | fuel + 1, p =>
    match p.up with
    | none => []
    | some q => q :: walkUpAux fuel q

/-- Model of `GridPoint::walk_up()`. -/
def GridPoint.walk_up (p : GridPoint α) : List (GridPoint α) :=
  walkUpAux p.coords.2 p

/-- Fuel-driven unfolding of the downwards column walk. -/
def walkDownAux : Nat → GridPoint α → List (GridPoint α)
  | 0, _ => []
  | fuel + 1, p =>
    match p.down with
    | none => []
    | some q => q :: walkDownAux fuel q

/-- Model of `GridPoint::walk_down()`. -/
def GridPoint.walk_down (p : GridPoint α) : List (GridPoint α) :=
  walkDownAux (p.grid.height - p.coords.2) p

/-- The delta array literal of `GridPoint::neighbors`, in the source's
compass scan order NW, N, NE, W, E, SW, S, SE. -/
def compassDeltas : List (Int × Int) :=
  [(-1, -1), (0, -1), (1, -1),
   (-1, 0),           (1, 0),
   (-1, 1),  (0, 1),  (1, 1)]

/-- Model of `GridPoint::neighbors()`: `filter_map` of `offset` over the
compass deltas. -/
def GridPoint.neighbors (p : GridPoint α) : List (GridPoint α) :=
  compassDeltas.filterMap (fun d => p.offset d)

/-- The representation invariant every grid built by the public API
satisfies: the flat buffer has exactly `width * height` elements. -/
def Grid.Wf (g : Grid α) : Prop :=
  g.data.length = g.width * g.height

instance (g : Grid α) : Decidable g.Wf := by
  unfold Grid.Wf; infer_instance

/-- The invariant of `GridPoint` stated in the specification: coordinates in
range and `index = y * width + x`. -/
def GridPoint.Valid (p : GridPoint α) : Prop :=
  p.coords.1 < p.grid.width ∧ p.coords.2 < p.grid.height ∧
    p.index = p.coords.2 * p.grid.width + p.coords.1

instance (p : GridPoint α) : Decidable p.Valid := by
  unfold GridPoint.Valid; infer_instance

/-- ASCII fragment of Rust's `char::is_whitespace`, which drives
`str::trim`.  (The full Unicode White_Space table is not modelled; every
input considered below stays inside this fragment.) -/
def isWsChar (c : Char) : Bool :=
  c == ' ' || c == '\t' || c == '\n' || c == '\x0b' || c == '\x0c' || c == '\r'

/-- Model of `str::trim` on a line given as its character list. -/
def trimChars (l : List Char) : List Char :=
  ((l.dropWhile isWsChar).reverse.dropWhile isWsChar).reverse

/-- Model of Rust's `str::len` (UTF-8 byte length) of a character list. -/
def utf8Len (l : List Char) : Nat :=
  (l.map Char.utf8Size).sum

/-- Model of the inner per-character loop of `load_grid`: convert every
character of the line, stopping at the first conversion failure (which the
Rust `?` turns into a recoverable error for the whole call). -/
def parseLine (conv : Char → Option α) : List Char → Option (List α)
  | [] => some []
  | c :: cs =>
    match conv c with
    | none => none
    | some v => (parseLine conv cs).map (fun vs => v :: vs)

/-- The three possible outcomes of `load_grid`: a fatal panic (from the
`Grid::from_data` assertion), a recoverable `Err` returned to the caller
(conversion failure or row-width mismatch), or a grid. -/
inductive LoadResult (α : Type) where
  | panic : LoadResult α
  | err : LoadResult α
  | ok : Grid α → LoadResult α
deriving DecidableEq

/-- The line loop of `load_grid`, with the accumulated data and the
remembered width as explicit state.  Blank lines (after trimming) are
skipped; the first non-blank line fixes the width as its byte length; every
later non-blank line must match it exactly (`ensure!`, a recoverable error);
characters are converted one by one (`?`, a recoverable error).  At the end
the data is wrapped via `Grid::from_data` with width `width.unwrap_or(0)`,
whose assertion failure is the fatal outcome. -/
def loadLoop (conv : Char → Option α) :
    List (List Char) → List α → Option Nat → LoadResult α
  | [], data, width =>
    match Grid.from_data data (width.getD 0) with
    | none => .panic
    | some g => .ok g
  | line :: rest, data, width =>
    let t := trimChars line
    if t.isEmpty then loadLoop conv rest data width
    else
      match width with
      | some w =>
        if w = utf8Len t then
          match parseLine conv t with
          | none => .err
          | some vs => loadLoop conv rest (data ++ vs) (some w)
        else .err
      | none =>
        match parseLine conv t with
        | none => .err
        | some vs => loadLoop conv rest (data ++ vs) (some (utf8Len t))

/-- Model of `util::load_grid`: the input text as a list of lines (the
`read_line` loop), each line as its character list. -/
def load_grid (conv : Char → Option α) (input : List (List Char)) : LoadResult α :=
  loadLoop conv input [] none

/-- The trimmed non-blank lines of an input, in order; `load_grid` derives
one grid row from each of them. -/
def nonBlankLines (input : List (List Char)) : List (List Char) :=
  (input.map trimChars).filter (fun l => !l.isEmpty)

lemma from_fn_data_eq (w h : Nat) (f : Nat → Nat → α) :
    (Grid.from_fn w h f).data = (List.range (h * w)).map (fun i => f (i % w) (i / w)) := by
  simp only [Grid.from_fn]
  induction h with
  | zero => simp
  | succ h ih =>
    rw [List.range_succ, List.flatMap_append, ih, show (h + 1) * w = h * w + w by ring,
        List.range_add, List.map_append]
    congr 1
    simp only [List.flatMap_cons, List.flatMap_nil, List.append_nil, List.map_map]
    refine List.map_congr_left ?_
    intro x hx
    rw [List.mem_range] at hx
    simp only [Function.comp_apply]
    rw [Nat.mul_comm h w, Nat.mul_add_mod, Nat.mod_eq_of_lt hx,
        Nat.mul_add_div (by omega), Nat.div_eq_of_lt hx, Nat.add_zero]

lemma from_fn_getElem? (w h : Nat) (f : Nat → Nat → α) (x y : Nat) (hx : x < w) (hy : y < h) :
    (Grid.from_fn w h f).data[w * y + x]? = some (f x y) := by
  have hlt : w * y + x < h * w := by
    have h1 : w * (y + 1) = w * y + w := by ring
    have h2 : w * (y + 1) ≤ w * h := Nat.mul_le_mul_left w (by omega)
    have h3 : w * h = h * w := Nat.mul_comm w h
    omega
  rw [from_fn_data_eq, List.getElem?_map, List.getElem?_range hlt]
  rw [show Option.map (fun i => f (i % w) (i / w)) (some (w * y + x)) =
        some (f ((w * y + x) % w) ((w * y + x) / w)) from rfl]
  rw [Nat.mul_add_mod, Nat.mod_eq_of_lt hx, Nat.mul_add_div (by omega), Nat.div_eq_of_lt hx,
      Nat.add_zero]

lemma Grid.get_pos (g : Grid α) (x y : Nat) (hx : x < g.width) (hy : y < g.height) :
    g.get (x, y) = g.data[g.width * y + x]? :=
  if_pos ⟨hx, hy⟩

lemma Grid.get_neg (g : Grid α) (x y : Nat) (hcon : ¬(x < g.width ∧ y < g.height)) :
    g.get (x, y) = none :=
  if_neg hcon

lemma Grid.try_get_eq_get (g : Grid α) (pos : Nat × Nat) : g.try_get pos = g.get pos :=
  rfl

lemma from_fn_wf (w h : Nat) (f : Nat → Nat → α) : (Grid.from_fn w h f).Wf := by
  rw [Grid.Wf, from_fn_data_eq, List.length_map, List.length_range]
  exact Nat.mul_comm h w

/-- C5: for a grid built by `Grid::from_fn(width, height, f)`, `get(x, y)`
returns `f x y` for every in-bounds coordinate, `try_get` agrees with `get`
there, and for out-of-range coordinates `get` panics (modelled `none`) while
`try_get` returns the recoverable `None`. -/
theorem from_fn_get_spec (w h : Nat) (f : Nat → Nat → α) (x y : Nat) :
    (x < w → y < h →
       (Grid.from_fn w h f).get (x, y) = some (f x y) ∧
       (Grid.from_fn w h f).try_get (x, y) = (Grid.from_fn w h f).get (x, y)) ∧
    (¬(x < w ∧ y < h) →
       (Grid.from_fn w h f).get (x, y) = none ∧
       (Grid.from_fn w h f).try_get (x, y) = none) := by
  constructor
  · intro hx hy
    refine ⟨?_, rfl⟩
    exact (Grid.get_pos (Grid.from_fn w h f) x y hx hy).trans (from_fn_getElem? w h f x y hx hy)
  · intro hcon
    have hget : (Grid.from_fn w h f).get (x, y) = none := Grid.get_neg _ x y hcon
    exact ⟨hget, (Grid.try_get_eq_get _ _).trans hget⟩

theorem from_fn_get_spec_witness :
    (Grid.from_fn 4 4 (fun x y => x + y)).get (1, 2) = some 3 ∧
    (Grid.from_fn 4 4 (fun x y => x + y)).try_get (5, 0) = none :=
  ⟨((from_fn_get_spec 4 4 (fun x y => x + y) 1 2).1 (by decide) (by decide)).1,
   ((from_fn_get_spec 4 4 (fun x y => x + y) 5 0).2 (by decide)).2⟩

/-- C6 counterexample: with `width = 0` and the empty data vector the
claim's divisibility condition `data.length % width = 0` holds (`0 % 0 = 0`),
so the claim promises success with `height = 0 / 0`, but `Grid::from_data`
is fatal there: the Rust remainder `data.len() % 0` is a remainder by zero,
which panics. -/
theorem from_data_zero_width_counterexample :
    ([] : List Nat).length % 0 = 0 ∧ Grid.from_data ([] : List Nat) 0 = none := by
  exact ⟨rfl, rfl⟩

/-- C6 (amended): for every `width ≥ 1`, `Grid::from_data(data, width)`
fails fatally when `data.length % width ≠ 0` and otherwise succeeds with
`height = data.length / width` exactly (the wrapped grid satisfying
`data.length = width * height`); for `width = 0` the call always fails
fatally because the divisibility check itself is a remainder by zero. -/
theorem from_data_spec (data : List α) (width : Nat) :
    (width = 0 → Grid.from_data data width = none) ∧
    (1 ≤ width →
      (data.length % width ≠ 0 → Grid.from_data data width = none) ∧
      (data.length % width = 0 →
        Grid.from_data data width =
          some { data := data, width := width, height := data.length / width } ∧
        data.length = width * (data.length / width))) := by
  constructor
  · intro h0
    rw [Grid.from_data, if_pos h0]
  · intro hw
    have hne : ¬ width = 0 := by omega
    constructor
    · intro hmod
      rw [Grid.from_data, if_neg hne, if_neg hmod]
    · intro hmod
      refine ⟨by rw [Grid.from_data, if_neg hne, if_pos hmod], ?_⟩
      exact (Nat.mul_div_cancel' (Nat.dvd_of_mod_eq_zero hmod)).symm

theorem from_data_spec_witness :
    Grid.from_data [1, 2, 3, 4, 5, 6] 3 =
      some { data := [1, 2, 3, 4, 5, 6], width := 3, height := 2 } ∧
    Grid.from_data [1, 2, 3, 4] 3 = none ∧
    Grid.from_data [1, 2] 0 = none :=
  ⟨(((from_data_spec [1, 2, 3, 4, 5, 6] 3).2 (by decide)).2 (by decide)).1,
   ((from_data_spec [1, 2, 3, 4] 3).2 (by decide)).1 (by decide),
   (from_data_spec [1, 2] 0).1 rfl⟩

lemma offset_eq (p : GridPoint α) (hp : p.Valid) (dx dy : Int) :
    p.offset (dx, dy) =
      (if 0 ≤ (p.coords.1 : Int) + dx ∧ (p.coords.1 : Int) + dx < (p.grid.width : Int) ∧
          0 ≤ (p.coords.2 : Int) + dy ∧ (p.coords.2 : Int) + dy < (p.grid.height : Int)
       then some { index := ((p.coords.2 : Int) + dy).toNat * p.grid.width +
                     ((p.coords.1 : Int) + dx).toNat,
                   coords := (((p.coords.1 : Int) + dx).toNat, ((p.coords.2 : Int) + dy).toNat),
                   grid := p.grid }
       else none) := by
  rcases p with ⟨i, ⟨x, y⟩, g⟩
  simp only [GridPoint.Valid] at hp
  obtain ⟨hx, hy, hi⟩ := hp
  simp only [GridPoint.offset]
  have m1 : (y - dy.natAbs) * g.width = y * g.width - dy.natAbs * g.width := Nat.sub_mul y dy.natAbs g.width
  have m2 : g.width * dy.natAbs = dy.natAbs * g.width := Nat.mul_comm g.width dy.natAbs
  have m4 : (y + dy.toNat) * g.width = y * g.width + dy.toNat * g.width := Nat.add_mul y dy.toNat g.width
  have m5 : g.width * dy.toNat = dy.toNat * g.width := Nat.mul_comm g.width dy.toNat
  by_cases hdx : dx < 0
  · simp only [if_pos hdx]
    by_cases hgx : dx.natAbs ≤ x
    · simp only [if_pos hgx]
      by_cases hdy : dy < 0
      · simp only [if_pos hdy]
        by_cases hgy : dy.natAbs ≤ y
        · simp only [if_pos hgy]
          rw [if_pos (by omega)]
          have e1 : ((y : Int) + dy).toNat = y - dy.natAbs := by omega
          have e2 : ((x : Int) + dx).toNat = x - dx.natAbs := by omega
          rw [e1, e2]
          simp only [Option.some.injEq, GridPoint.mk.injEq, Prod.mk.injEq]
          have m3 : dy.natAbs * g.width ≤ y * g.width := Nat.mul_le_mul_right g.width hgy
          exact ⟨by omega, trivial, trivial⟩
        · simp only [if_neg hgy]
          rw [if_neg (by omega)]
      · simp only [if_neg hdy]
        by_cases hgy : y + dy.toNat < g.height
        · simp only [if_pos hgy]
          rw [if_pos (by omega)]
          have e1 : ((y : Int) + dy).toNat = y + dy.toNat := by omega
          have e2 : ((x : Int) + dx).toNat = x - dx.natAbs := by omega
          rw [e1, e2]
          simp only [Option.some.injEq, GridPoint.mk.injEq, Prod.mk.injEq]
          exact ⟨by omega, trivial, trivial⟩
        · simp only [if_neg hgy]
          rw [if_neg (by omega)]
    · simp only [if_neg hgx]
      rw [if_neg (by omega)]
  · simp only [if_neg hdx]
    by_cases hgx : x + dx.toNat < g.width
    · simp only [if_pos hgx]
      by_cases hdy : dy < 0
      · simp only [if_pos hdy]
        by_cases hgy : dy.natAbs ≤ y
        · simp only [if_pos hgy]
          rw [if_pos (by omega)]
          have e1 : ((y : Int) + dy).toNat = y - dy.natAbs := by omega
          have e2 : ((x : Int) + dx).toNat = x + dx.toNat := by omega
          rw [e1, e2]
          simp only [Option.some.injEq, GridPoint.mk.injEq, Prod.mk.injEq]
          have m3 : dy.natAbs * g.width ≤ y * g.width := Nat.mul_le_mul_right g.width hgy
          exact ⟨by omega, trivial, trivial⟩
        · simp only [if_neg hgy]
          rw [if_neg (by omega)]
      · simp only [if_neg hdy]
        by_cases hgy : y + dy.toNat < g.height
        · simp only [if_pos hgy]
          rw [if_pos (by omega)]
          have e1 : ((y : Int) + dy).toNat = y + dy.toNat := by omega
          have e2 : ((x : Int) + dx).toNat = x + dx.toNat := by omega
          rw [e1, e2]
          simp only [Option.some.injEq, GridPoint.mk.injEq, Prod.mk.injEq]
          exact ⟨by omega, trivial, trivial⟩
        · simp only [if_neg hgy]
          rw [if_neg (by omega)]
    · simp only [if_neg hgx]
      rw [if_neg (by omega)]

lemma offset_valid (p : GridPoint α) (hp : p.Valid) (d : Int × Int) (q : GridPoint α)
    (hq : p.offset d = some q) : q.Valid ∧ q.grid = p.grid := by
  obtain ⟨dx, dy⟩ := d
  rw [offset_eq p hp dx dy] at hq
  split at hq
  · next hcond =>
    obtain ⟨h1, h2, h3, h4⟩ := hcond
    injection hq with hq
    subst hq
    refine ⟨⟨?_, ?_, rfl⟩, rfl⟩
    · dsimp only
      omega
    · dsimp only
      omega
  · exact absurd hq (by simp)

/-- C2: for every valid point `p = (x, y)` of its grid, `offset((dx, dy))`
returns the point at `(x + dx, y + dy)` exactly when both resulting
coordinates lie in `[0, width) × [0, height)`, and returns the recoverable
`None` whenever either resulting coordinate would be negative or would reach
`width`/`height` — never wrapping and never producing a negative
coordinate. -/
theorem offset_coords_spec (p : GridPoint α) (hp : p.Valid) (dx dy : Int) :
    ((0 ≤ (p.coords.1 : Int) + dx ∧ (p.coords.1 : Int) + dx < (p.grid.width : Int) ∧
      0 ≤ (p.coords.2 : Int) + dy ∧ (p.coords.2 : Int) + dy < (p.grid.height : Int)) →
      ∃ q, p.offset (dx, dy) = some q ∧ q.grid = p.grid ∧
        (q.coords.1 : Int) = (p.coords.1 : Int) + dx ∧
        (q.coords.2 : Int) = (p.coords.2 : Int) + dy) ∧
    (¬(0 ≤ (p.coords.1 : Int) + dx ∧ (p.coords.1 : Int) + dx < (p.grid.width : Int) ∧
       0 ≤ (p.coords.2 : Int) + dy ∧ (p.coords.2 : Int) + dy < (p.grid.height : Int)) →
      p.offset (dx, dy) = none) := by
  constructor
  · intro hcond
    rw [offset_eq p hp dx dy, if_pos hcond]
    refine ⟨_, rfl, rfl, ?_, ?_⟩
    · obtain ⟨h1, h2, h3, h4⟩ := hcond
      dsimp only
      omega
    · obtain ⟨h1, h2, h3, h4⟩ := hcond
      dsimp only
      omega
  · intro hcond
    rw [offset_eq p hp dx dy, if_neg hcond]

theorem offset_coords_spec_witness :
    (GridPoint.offset ⟨3, (1, 1), Grid.mk [0, 1, 2, 3] 2 2⟩ ((-1 : Int), (0 : Int))).isSome = true ∧
    GridPoint.offset ⟨3, (1, 1), Grid.mk [0, 1, 2, 3] 2 2⟩ ((-5 : Int), (0 : Int)) = none := by
  constructor
  · obtain ⟨q, hq, -⟩ :=
      (offset_coords_spec ⟨3, (1, 1), Grid.mk [0, 1, 2, 3] 2 2⟩ (by decide) (-1) 0).1 (by decide)
    rw [hq]
    rfl
  · exact (offset_coords_spec ⟨3, (1, 1), Grid.mk [0, 1, 2, 3] 2 2⟩ (by decide) (-5) 0).2 (by decide)

lemma points_valid (g : Grid α) (hwf : g.Wf) : ∀ p ∈ g.points, p.Valid := by
  intro p hp
  simp only [Grid.points, List.mem_map, List.mem_range] at hp
  obtain ⟨idx, hidx, rfl⟩ := hp
  rw [Grid.Wf] at hwf
  have hw : 0 < g.width := by
    rcases Nat.eq_zero_or_pos g.width with h0 | h0
    · rw [h0, Nat.zero_mul] at hwf
      omega
    · exact h0
  refine ⟨?_, ?_, ?_⟩ <;> dsimp only
  · exact Nat.mod_lt idx hw
  · rw [Nat.div_lt_iff_lt_mul hw]
    have := Nat.mul_comm g.width g.height
    omega
  · have := Nat.div_add_mod idx g.width
    have hc : (idx / g.width) * g.width = g.width * (idx / g.width) := Nat.mul_comm _ _
    omega

lemma point_valid (g : Grid α) (pos : Nat × Nat) (pt : GridPoint α)
    (hpt : g.point pos = some pt) : pt.Valid := by
  rw [Grid.point] at hpt
  split at hpt
  · next hcond =>
    injection hpt with hpt
    subst hpt
    exact ⟨hcond.1, hcond.2, Nat.add_comm pos.1 (pos.2 * g.width)⟩
  · exact absurd hpt (by simp)

lemma left_valid (p : GridPoint α) (hp : p.Valid) (q : GridPoint α)
    (hq : p.left = some q) : q.Valid ∧ q.grid = p.grid := by
  obtain ⟨hx, hy, hi⟩ := hp
  rw [GridPoint.left] at hq
  split at hq
  · next hcond =>
    injection hq with hq
    subst hq
    refine ⟨⟨?_, ?_, ?_⟩, rfl⟩ <;> dsimp only
    · omega
    · exact hy
    · omega
  · exact absurd hq (by simp)

lemma right_valid (p : GridPoint α) (hp : p.Valid) (q : GridPoint α)
    (hq : p.right = some q) : q.Valid ∧ q.grid = p.grid := by
  obtain ⟨hx, hy, hi⟩ := hp
  rw [GridPoint.right] at hq
  split at hq
  · next hcond =>
    injection hq with hq
    subst hq
    refine ⟨⟨?_, ?_, ?_⟩, rfl⟩ <;> dsimp only
    · omega
    · exact hy
    · omega
  · exact absurd hq (by simp)

lemma up_valid (p : GridPoint α) (hp : p.Valid) (q : GridPoint α)
    (hq : p.up = some q) : q.Valid ∧ q.grid = p.grid := by
  obtain ⟨hx, hy, hi⟩ := hp
  rw [GridPoint.up] at hq
  split at hq
  · next hcond =>
    have m1 : (p.coords.2 - 1) * p.grid.width = p.coords.2 * p.grid.width - 1 * p.grid.width :=
      Nat.sub_mul _ 1 _
    have m2 : 1 * p.grid.width = p.grid.width := Nat.one_mul _
    have m3 : 1 * p.grid.width ≤ p.coords.2 * p.grid.width :=
      Nat.mul_le_mul_right _ (by omega)
    injection hq with hq
    subst hq
    refine ⟨⟨?_, ?_, ?_⟩, rfl⟩ <;> dsimp only
    · exact hx
    · omega
    · omega
  · exact absurd hq (by simp)

lemma down_valid (p : GridPoint α) (hp : p.Valid) (q : GridPoint α)
    (hq : p.down = some q) : q.Valid ∧ q.grid = p.grid := by
  obtain ⟨hx, hy, hi⟩ := hp
  rw [GridPoint.down] at hq
  split at hq
  · next hcond =>
    have m1 : (p.coords.2 + 1) * p.grid.width = p.coords.2 * p.grid.width + 1 * p.grid.width :=
      Nat.add_mul _ 1 _
    have m2 : 1 * p.grid.width = p.grid.width := Nat.one_mul _
    injection hq with hq
    subst hq
    refine ⟨⟨?_, ?_, ?_⟩, rfl⟩ <;> dsimp only
    · exact hx
    · omega
    · omega
  · exact absurd hq (by simp)

lemma walkLeftAux_valid (fuel : Nat) :
    ∀ p : GridPoint α, p.Valid → ∀ q ∈ walkLeftAux fuel p, q.Valid := by
  induction fuel with
  | zero => intro p hp q hq; simp [walkLeftAux] at hq
  | succ fuel ih =>
    intro p hp q hq
    rw [walkLeftAux] at hq
    rcases hleft : p.left with _ | r
    · rw [hleft] at hq
      simp at hq
    · rw [hleft] at hq
      rcases List.mem_cons.mp hq with rfl | hq'
      · exact (left_valid p hp q hleft).1
      · exact ih r (left_valid p hp r hleft).1 q hq'

lemma walkRightAux_valid (fuel : Nat) :
    ∀ p : GridPoint α, p.Valid → ∀ q ∈ walkRightAux fuel p, q.Valid := by
  induction fuel with
  | zero => intro p hp q hq; simp [walkRightAux] at hq
  | succ fuel ih =>
    intro p hp q hq
    rw [walkRightAux] at hq
    rcases hr : p.right with _ | r
    · rw [hr] at hq
      simp at hq
    · rw [hr] at hq
      rcases List.mem_cons.mp hq with rfl | hq'
      · exact (right_valid p hp q hr).1
      · exact ih r (right_valid p hp r hr).1 q hq'

lemma walkUpAux_valid (fuel : Nat) :
    ∀ p : GridPoint α, p.Valid → ∀ q ∈ walkUpAux fuel p, q.Valid := by
  induction fuel with
  | zero => intro p hp q hq; simp [walkUpAux] at hq
  | succ fuel ih =>
    intro p hp q hq
    rw [walkUpAux] at hq
    rcases hr : p.up with _ | r
    · rw [hr] at hq
      simp at hq
    · rw [hr] at hq
      rcases List.mem_cons.mp hq with rfl | hq'
      · exact (up_valid p hp q hr).1
      · exact ih r (up_valid p hp r hr).1 q hq'

lemma walkDownAux_valid (fuel : Nat) :
    ∀ p : GridPoint α, p.Valid → ∀ q ∈ walkDownAux fuel p, q.Valid := by
  induction fuel with
  | zero => intro p hp q hq; simp [walkDownAux] at hq
  | succ fuel ih =>
    intro p hp q hq
    rw [walkDownAux] at hq
    rcases hr : p.down with _ | r
    · rw [hr] at hq
      simp at hq
    · rw [hr] at hq
      rcases List.mem_cons.mp hq with rfl | hq'
      · exact (down_valid p hp q hr).1
      · exact ih r (down_valid p hp r hr).1 q hq'

lemma neighbors_valid (p : GridPoint α) (hp : p.Valid) :
    ∀ q ∈ p.neighbors, q.Valid := by
  intro q hq
  rw [GridPoint.neighbors] at hq
  obtain ⟨d, -, hd⟩ := List.mem_filterMap.mp hq
  exact (offset_valid p hp d q hd).1

/-- C3: every Point any operation produces satisfies the representation
invariant `index = y * width + x` with `(x, y)` inside
`[0, width) × [0, height)`: the points of `points()`, the result of
`point(pos)` (which fails fatally on an out-of-range position), the results
of `find`, and — for any valid point of any well-formed or not grid — the
results of `offset`, `left`, `right`, `up`, `down`, the `walk_*` iterators
and `neighbors`. -/
theorem point_invariant_spec [DecidableEq α] (g : Grid α) (hwf : g.Wf) :
    (∀ p ∈ g.points, p.Valid) ∧
    (∀ pos pt, g.point pos = some pt → pt.Valid) ∧
    (∀ pos, ¬(pos.1 < g.width ∧ pos.2 < g.height) → g.point pos = none) ∧
    (∀ v, ∀ pt ∈ g.find v, pt.Valid) ∧
    (∀ p : GridPoint α, p.Valid →
      (∀ d q, p.offset d = some q → q.Valid) ∧
      (∀ q, p.left = some q → q.Valid) ∧
      (∀ q, p.right = some q → q.Valid) ∧
      (∀ q, p.up = some q → q.Valid) ∧
      (∀ q, p.down = some q → q.Valid) ∧
      (∀ q ∈ p.walk_left, q.Valid) ∧
      (∀ q ∈ p.walk_right, q.Valid) ∧
      (∀ q ∈ p.walk_up, q.Valid) ∧
      (∀ q ∈ p.walk_down, q.Valid) ∧
      (∀ q ∈ p.neighbors, q.Valid)) := by
  refine ⟨points_valid g hwf, fun pos pt => point_valid g pos pt, ?_, ?_, ?_⟩
  · intro pos hcon
    rw [Grid.point, if_neg hcon]
  · intro v pt hpt
    rw [Grid.find] at hpt
    exact points_valid g hwf pt (List.mem_filter.mp hpt).1
  · intro p hp
    exact ⟨fun d q => (offset_valid p hp d q · |>.1),
           fun q => (left_valid p hp q · |>.1),
           fun q => (right_valid p hp q · |>.1),
           fun q => (up_valid p hp q · |>.1),
           fun q => (down_valid p hp q · |>.1),
           walkLeftAux_valid _ p hp,
           walkRightAux_valid _ p hp,
           walkUpAux_valid _ p hp,
           walkDownAux_valid _ p hp,
           neighbors_valid p hp⟩

theorem point_invariant_spec_witness :
    GridPoint.Valid ⟨1, (1, 0), Grid.mk [0, 1, 2, 3] 2 2⟩ ∧
    Grid.point (Grid.mk [0, 1, 2, 3] 2 2) (1, 2) = none := by
  constructor
  · exact (point_invariant_spec (Grid.mk [0, 1, 2, 3] 2 2) (by decide)).2.1 (1, 0) _ rfl
  · exact (point_invariant_spec (Grid.mk [0, 1, 2, 3] 2 2) (by decide)).2.2.1 (1, 2) (by decide)

/-- Modelled from the spec: the in-bounds neighbor coordinate at a given
compass delta — `some (x + dx, y + dy)` exactly when both coordinates stay
inside `[0, width) × [0, height)`, otherwise `none`.  Used to state the
refinement of `neighbors()` against the specification text. -/
def specNeighborCoords (w h : Nat) (c : Nat × Nat) (d : Int × Int) : Option (Nat × Nat) :=
  if 0 ≤ (c.1 : Int) + d.1 ∧ (c.1 : Int) + d.1 < (w : Int) ∧
     0 ≤ (c.2 : Int) + d.2 ∧ (c.2 : Int) + d.2 < (h : Int)
  then some (((c.1 : Int) + d.1).toNat, ((c.2 : Int) + d.2).toNat)
  else none

lemma offset_map_coords (p : GridPoint α) (hp : p.Valid) (d : Int × Int) :
    (p.offset d).map GridPoint.coords =
      specNeighborCoords p.grid.width p.grid.height p.coords d := by
  obtain ⟨dx, dy⟩ := d
  rw [offset_eq p hp dx dy, specNeighborCoords]
  by_cases hcond : 0 ≤ (p.coords.1 : Int) + dx ∧ (p.coords.1 : Int) + dx < (p.grid.width : Int) ∧
      0 ≤ (p.coords.2 : Int) + dy ∧ (p.coords.2 : Int) + dy < (p.grid.height : Int)
  · rw [if_pos hcond, if_pos hcond]
    rfl
  · rw [if_neg hcond, if_neg hcond]
    rfl

lemma neighbors_coords (p : GridPoint α) (hp : p.Valid) :
    p.neighbors.map GridPoint.coords =
      compassDeltas.filterMap (specNeighborCoords p.grid.width p.grid.height p.coords) := by
  rw [GridPoint.neighbors, List.map_filterMap]
  have hfun : (fun d => (p.offset d).map GridPoint.coords) =
      specNeighborCoords p.grid.width p.grid.height p.coords :=
    funext (fun d => offset_map_coords p hp d)
  rw [hfun]

lemma neighbors_length_eq_countP (p : GridPoint α) (hp : p.Valid) :
    p.neighbors.length =
      compassDeltas.countP
        (fun d => (specNeighborCoords p.grid.width p.grid.height p.coords d).isSome) := by
  rw [← List.length_map p.neighbors GridPoint.coords, neighbors_coords p hp,
      List.length_filterMap_eq_countP]

/-- C8: `neighbors()` yields exactly the in-bounds points among the 8
compass directions around `p`, in the fixed scan order NW, N, NE, W, E, SW,
S, SE (stated as a refinement of the coordinate sequence against the
spec-side `specNeighborCoords`); consequently a corner cell of an `n × n`
grid (`n ≥ 2`) has exactly 3 neighbors, an interior cell exactly 8, and the
sole cell of a `1 × 1` grid exactly 0. -/
theorem neighbors_spec (α : Type) :
    (∀ p : GridPoint α, p.Valid →
       p.neighbors.map GridPoint.coords =
         compassDeltas.filterMap (specNeighborCoords p.grid.width p.grid.height p.coords)) ∧
    (∀ n : Nat, 2 ≤ n → ∀ p : GridPoint α, p.Valid →
       p.grid.width = n → p.grid.height = n →
       (p.coords = (0, 0) ∨ p.coords = (0, n - 1) ∨
        p.coords = (n - 1, 0) ∨ p.coords = (n - 1, n - 1)) →
       p.neighbors.length = 3) ∧
    (∀ p : GridPoint α, p.Valid →
       1 ≤ p.coords.1 → p.coords.1 + 1 < p.grid.width →
       1 ≤ p.coords.2 → p.coords.2 + 1 < p.grid.height →
       p.neighbors.length = 8) ∧
    (∀ p : GridPoint α, p.Valid → p.grid.width = 1 → p.grid.height = 1 →
       p.neighbors.length = 0) := by
  refine ⟨fun p hp => neighbors_coords p hp, ?_, ?_, ?_⟩
  · intro n hn p hp hw hh hcorner
    rcases hcorner with hc | hc | hc | hc
    · rw [neighbors_length_eq_countP p hp, hw, hh, hc]
      have e1 : (specNeighborCoords n n (0, 0) (-1, -1)).isSome = false := by
        simp only [specNeighborCoords]
        rw [if_neg (by omega)]
        rfl
      have e2 : (specNeighborCoords n n (0, 0) (0, -1)).isSome = false := by
        simp only [specNeighborCoords]
        rw [if_neg (by omega)]
        rfl
      have e3 : (specNeighborCoords n n (0, 0) (1, -1)).isSome = false := by
        simp only [specNeighborCoords]
        rw [if_neg (by omega)]
        rfl
      have e4 : (specNeighborCoords n n (0, 0) (-1, 0)).isSome = false := by
        simp only [specNeighborCoords]
        rw [if_neg (by omega)]
        rfl
      have e5 : (specNeighborCoords n n (0, 0) (1, 0)).isSome = true := by
        simp only [specNeighborCoords]
        rw [if_pos (by omega)]
        rfl
      have e6 : (specNeighborCoords n n (0, 0) (-1, 1)).isSome = false := by
        simp only [specNeighborCoords]
        rw [if_neg (by omega)]
        rfl
      have e7 : (specNeighborCoords n n (0, 0) (0, 1)).isSome = true := by
        simp only [specNeighborCoords]
        rw [if_pos (by omega)]
        rfl
      have e8 : (specNeighborCoords n n (0, 0) (1, 1)).isSome = true := by
        simp only [specNeighborCoords]
        rw [if_pos (by omega)]
        rfl
      simp only [compassDeltas, List.countP_cons, List.countP_nil, e1, e2, e3, e4, e5, e6, e7, e8]
      decide
    · rw [neighbors_length_eq_countP p hp, hw, hh, hc]
      have e1 : (specNeighborCoords n n (0, n - 1) (-1, -1)).isSome = false := by
        simp only [specNeighborCoords]
        rw [if_neg (by omega)]
        rfl
      have e2 : (specNeighborCoords n n (0, n - 1) (0, -1)).isSome = true := by
        simp only [specNeighborCoords]
        rw [if_pos (by omega)]
        rfl
      have e3 : (specNeighborCoords n n (0, n - 1) (1, -1)).isSome = true := by
        simp only [specNeighborCoords]
        rw [if_pos (by omega)]
        rfl
      have e4 : (specNeighborCoords n n (0, n - 1) (-1, 0)).isSome = false := by
        simp only [specNeighborCoords]
        rw [if_neg (by omega)]
        rfl
      have e5 : (specNeighborCoords n n (0, n - 1) (1, 0)).isSome = true := by
        simp only [specNeighborCoords]
        rw [if_pos (by omega)]
        rfl
      have e6 : (specNeighborCoords n n (0, n - 1) (-1, 1)).isSome = false := by
        simp only [specNeighborCoords]
        rw [if_neg (by omega)]
        rfl
      have e7 : (specNeighborCoords n n (0, n - 1) (0, 1)).isSome = false := by
        simp only [specNeighborCoords]
        rw [if_neg (by omega)]
        rfl
      have e8 : (specNeighborCoords n n (0, n - 1) (1, 1)).isSome = false := by
        simp only [specNeighborCoords]
        rw [if_neg (by omega)]
        rfl
      simp only [compassDeltas, List.countP_cons, List.countP_nil, e1, e2, e3, e4, e5, e6, e7, e8]
      decide
    · rw [neighbors_length_eq_countP p hp, hw, hh, hc]
      have e1 : (specNeighborCoords n n (n - 1, 0) (-1, -1)).isSome = false := by
        simp only [specNeighborCoords]
        rw [if_neg (by omega)]
        rfl
      have e2 : (specNeighborCoords n n (n - 1, 0) (0, -1)).isSome = false := by
        simp only [specNeighborCoords]
        rw [if_neg (by omega)]
        rfl
      have e3 : (specNeighborCoords n n (n - 1, 0) (1, -1)).isSome = false := by
        simp only [specNeighborCoords]
        rw [if_neg (by omega)]
        rfl
      have e4 : (specNeighborCoords n n (n - 1, 0) (-1, 0)).isSome = true := by
        simp only [specNeighborCoords]
        rw [if_pos (by omega)]
        rfl
      have e5 : (specNeighborCoords n n (n - 1, 0) (1, 0)).isSome = false := by
        simp only [specNeighborCoords]
        rw [if_neg (by omega)]
        rfl
      have e6 : (specNeighborCoords n n (n - 1, 0) (-1, 1)).isSome = true := by
        simp only [specNeighborCoords]
        rw [if_pos (by omega)]
        rfl
      have e7 : (specNeighborCoords n n (n - 1, 0) (0, 1)).isSome = true := by
        simp only [specNeighborCoords]
        rw [if_pos (by omega)]
        rfl
      have e8 : (specNeighborCoords n n (n - 1, 0) (1, 1)).isSome = false := by
        simp only [specNeighborCoords]
        rw [if_neg (by omega)]
        rfl
      simp only [compassDeltas, List.countP_cons, List.countP_nil, e1, e2, e3, e4, e5, e6, e7, e8]
      decide
    · rw [neighbors_length_eq_countP p hp, hw, hh, hc]
      have e1 : (specNeighborCoords n n (n - 1, n - 1) (-1, -1)).isSome = true := by
        simp only [specNeighborCoords]
        rw [if_pos (by omega)]
        rfl
      have e2 : (specNeighborCoords n n (n - 1, n - 1) (0, -1)).isSome = true := by
        simp only [specNeighborCoords]
        rw [if_pos (by omega)]
        rfl
      have e3 : (specNeighborCoords n n (n - 1, n - 1) (1, -1)).isSome = false := by
        simp only [specNeighborCoords]
        rw [if_neg (by omega)]
        rfl
      have e4 : (specNeighborCoords n n (n - 1, n - 1) (-1, 0)).isSome = true := by
        simp only [specNeighborCoords]
        rw [if_pos (by omega)]
        rfl
      have e5 : (specNeighborCoords n n (n - 1, n - 1) (1, 0)).isSome = false := by
        simp only [specNeighborCoords]
        rw [if_neg (by omega)]
        rfl
      have e6 : (specNeighborCoords n n (n - 1, n - 1) (-1, 1)).isSome = false := by
        simp only [specNeighborCoords]
        rw [if_neg (by omega)]
        rfl
      have e7 : (specNeighborCoords n n (n - 1, n - 1) (0, 1)).isSome = false := by
        simp only [specNeighborCoords]
        rw [if_neg (by omega)]
        rfl
      have e8 : (specNeighborCoords n n (n - 1, n - 1) (1, 1)).isSome = false := by
        simp only [specNeighborCoords]
        rw [if_neg (by omega)]
        rfl
      simp only [compassDeltas, List.countP_cons, List.countP_nil, e1, e2, e3, e4, e5, e6, e7, e8]
      decide
  · intro p hp h1 h2 h3 h4
    rw [neighbors_length_eq_countP p hp]
    have e1 : (specNeighborCoords p.grid.width p.grid.height p.coords (-1, -1)).isSome = true := by
      simp only [specNeighborCoords]
      rw [if_pos (by omega)]
      rfl
    have e2 : (specNeighborCoords p.grid.width p.grid.height p.coords (0, -1)).isSome = true := by
      simp only [specNeighborCoords]
      rw [if_pos (by omega)]
      rfl
    have e3 : (specNeighborCoords p.grid.width p.grid.height p.coords (1, -1)).isSome = true := by
      simp only [specNeighborCoords]
      rw [if_pos (by omega)]
      rfl
    have e4 : (specNeighborCoords p.grid.width p.grid.height p.coords (-1, 0)).isSome = true := by
      simp only [specNeighborCoords]
      rw [if_pos (by omega)]
      rfl
    have e5 : (specNeighborCoords p.grid.width p.grid.height p.coords (1, 0)).isSome = true := by
      simp only [specNeighborCoords]
      rw [if_pos (by omega)]
      rfl
    have e6 : (specNeighborCoords p.grid.width p.grid.height p.coords (-1, 1)).isSome = true := by
      simp only [specNeighborCoords]
      rw [if_pos (by omega)]
      rfl
    have e7 : (specNeighborCoords p.grid.width p.grid.height p.coords (0, 1)).isSome = true := by
      simp only [specNeighborCoords]
      rw [if_pos (by omega)]
      rfl
    have e8 : (specNeighborCoords p.grid.width p.grid.height p.coords (1, 1)).isSome = true := by
      simp only [specNeighborCoords]
      rw [if_pos (by omega)]
      rfl
    simp only [compassDeltas, List.countP_cons, List.countP_nil, e1, e2, e3, e4, e5, e6, e7, e8]
    decide
  · intro p hp hw hh
    have hx := hp.1
    have hy := hp.2.1
    rw [hw] at hx
    rw [hh] at hy
    rw [neighbors_length_eq_countP p hp, hw, hh]
    have e1 : (specNeighborCoords 1 1 p.coords (-1, -1)).isSome = false := by
      simp only [specNeighborCoords]
      rw [if_neg (by omega)]
      rfl
    have e2 : (specNeighborCoords 1 1 p.coords (0, -1)).isSome = false := by
      simp only [specNeighborCoords]
      rw [if_neg (by omega)]
      rfl
    have e3 : (specNeighborCoords 1 1 p.coords (1, -1)).isSome = false := by
      simp only [specNeighborCoords]
      rw [if_neg (by omega)]
      rfl
    have e4 : (specNeighborCoords 1 1 p.coords (-1, 0)).isSome = false := by
      simp only [specNeighborCoords]
      rw [if_neg (by omega)]
      rfl
    have e5 : (specNeighborCoords 1 1 p.coords (1, 0)).isSome = false := by
      simp only [specNeighborCoords]
      rw [if_neg (by omega)]
      rfl
    have e6 : (specNeighborCoords 1 1 p.coords (-1, 1)).isSome = false := by
      simp only [specNeighborCoords]
      rw [if_neg (by omega)]
      rfl
    have e7 : (specNeighborCoords 1 1 p.coords (0, 1)).isSome = false := by
      simp only [specNeighborCoords]
      rw [if_neg (by omega)]
      rfl
    have e8 : (specNeighborCoords 1 1 p.coords (1, 1)).isSome = false := by
      simp only [specNeighborCoords]
      rw [if_neg (by omega)]
      rfl
    simp only [compassDeltas, List.countP_cons, List.countP_nil, e1, e2, e3, e4, e5, e6, e7, e8]
    decide

theorem neighbors_spec_witness :
    (GridPoint.neighbors ⟨0, (0, 0), Grid.mk [0, 1, 2, 3] 2 2⟩).length = 3 ∧
    (GridPoint.neighbors ⟨0, (0, 0), Grid.mk [5] 1 1⟩).length = 0 :=
  ⟨(neighbors_spec Nat).2.1 2 (by decide) ⟨0, (0, 0), Grid.mk [0, 1, 2, 3] 2 2⟩ (by decide)
      rfl rfl (Or.inl rfl),
   (neighbors_spec Nat).2.2.2 ⟨0, (0, 0), Grid.mk [5] 1 1⟩ (by decide) rfl rfl⟩

lemma stepByAux_getElem? (k : Nat) (hk : 1 ≤ k) :
    ∀ (fuel : Nat) (l : List α), l.length ≤ fuel → ∀ i, (stepByAux fuel l k)[i]? = l[i * k]? := by
  intro fuel
  induction fuel with
  | zero =>
    intro l hl i
    have hnil : l = [] := List.eq_nil_of_length_eq_zero (by omega)
    subst hnil
    simp [stepByAux]
  | succ fuel ih =>
    intro l hl i
    cases l with
    | nil => simp [stepByAux]
    | cons x xs =>
      cases i with
      | zero => simp [stepByAux]
      | succ i =>
        rw [stepByAux, List.getElem?_cons_succ,
            ih (xs.drop (k - 1)) (by rw [List.length_drop]; simp at hl; omega) i,
            List.getElem?_drop]
        have hidx : (i + 1) * k = (k - 1 + i * k) + 1 := by
          have hsm : (i + 1) * k = i * k + k := Nat.succ_mul i k
          omega
        rw [hidx, List.getElem?_cons_succ]

lemma stepBy_getElem? (l : List α) (k : Nat) (hk : 1 ≤ k) (i : Nat) :
    (stepBy l k)[i]? = l[i * k]? :=
  stepByAux_getElem? k hk l.length l (Nat.le_refl _) i

/-- C1 counterexample: the 4×0 grid built by `from_fn(4, 0, |x, y| x + y)`
has column 0 inside its width, yet `col_iter(0)` does not yield the
promised `height = 0` elements — the `data.len() - (width - col)` index
arithmetic is fatal on an empty data buffer (usize underflow in a debug
build, an out-of-range slice after wrapping in a release build). -/
theorem col_iter_empty_counterexample :
    0 < (Grid.from_fn 4 0 (fun x y => x + y)).width ∧
    (Grid.from_fn 4 0 (fun x y => x + y)).col_iter 0 = none := by
  exact ⟨by decide, by decide⟩

/-- C1 (amended): for every well-formed grid of height ≥ 1, `col_iter(c)`
with `c < width` yields exactly `height` elements, namely the cells
`(c, 0) … (c, height-1)` in increasing-y order, the reversed sequence gives
the same cells in decreasing-y order, and the reported length is exact;
`col_iter` fails fatally when `c ≥ width`.  On the 4×4 grid built from
`|x, y| x + y`, `col_iter(0)` yields `[0, 1, 2, 3]` and `col_iter(3)`
yields `[3, 4, 5, 6]`.  (On a grid of height 0 the call is fatal even for
`c < width`, see the counterexample.) -/
theorem col_iter_spec (g : Grid α) (hwf : g.Wf) (hh : 1 ≤ g.height) :
    (∀ c, c < g.width →
      ∃ l, g.col_iter c = some l ∧ l.length = g.height ∧
        (∀ y, y < g.height → l[y]? = g.get (c, y)) ∧
        (∀ i, i < g.height → l.reverse[i]? = g.get (c, g.height - 1 - i))) ∧
    (∀ c, g.width ≤ c → g.col_iter c = none) ∧
    (Grid.from_fn 4 4 (fun x y => x + y)).col_iter 0 = some [0, 1, 2, 3] ∧
    (Grid.from_fn 4 4 (fun x y => x + y)).col_iter 3 = some [3, 4, 5, 6] := by
  refine ⟨?_, ?_, by decide, by decide⟩
  · intro c hc
    rw [Grid.Wf] at hwf
    obtain ⟨h0, hh0⟩ : ∃ h0, g.height = h0 + 1 := ⟨g.height - 1, by omega⟩
    have hw : 1 ≤ g.width := by omega
    have hmul : g.width * g.height = g.width * h0 + g.width := by
      rw [hh0]; ring
    have hlen : g.data.length = g.width * h0 + g.width := by omega
    have hg1 : g.width - c ≤ g.data.length := by omega
    have hg2 : c ≤ g.data.length - (g.width - c) + 1 ∧
        g.data.length - (g.width - c) + 1 ≤ g.data.length := by omega
    rw [Grid.col_iter, if_pos hc]
    dsimp only
    rw [if_pos hg1, if_pos hg2]
    have hE : g.data.length - (g.width - c) + 1 = g.width * h0 + c + 1 := by omega
    have hcomm : ∀ m : Nat, m * g.width = g.width * m := fun m => Nat.mul_comm m g.width
    have hcontent : ∀ j, ((g.data.take (g.data.length - (g.width - c) + 1)).drop c)[j]? =
        if c + j < g.width * h0 + c + 1 then g.data[c + j]? else none := by
      intro j
      rw [List.getElem?_drop, List.getElem?_take, hE]
    have hstep : ∀ i,
        (stepBy ((g.data.take (g.data.length - (g.width - c) + 1)).drop c) g.width)[i]? =
          if c + i * g.width < g.width * h0 + c + 1 then g.data[c + i * g.width]? else none := by
      intro i
      rw [stepBy_getElem? _ _ hw, hcontent]
    have hfwd : ∀ y, y < g.height →
        (stepBy ((g.data.take (g.data.length - (g.width - c) + 1)).drop c) g.width)[y]? =
          g.get (c, y) := by
      intro y hy
      have hyle : y * g.width ≤ h0 * g.width := Nat.mul_le_mul_right g.width (by omega)
      rw [hstep y, if_pos (by have := hcomm y; have := hcomm h0; omega),
          Grid.get_pos g c y hc (by omega),
          show c + y * g.width = g.width * y + c from by have := hcomm y; omega]
    have hnone : (stepBy ((g.data.take (g.data.length - (g.width - c) + 1)).drop c)
        g.width)[h0 + 1]? = none := by
      rw [hstep, if_neg]
      have hsm : (h0 + 1) * g.width = h0 * g.width + g.width := Nat.succ_mul h0 g.width
      have := hcomm h0
      omega
    have hlast : (stepBy ((g.data.take (g.data.length - (g.width - c) + 1)).drop c)
        g.width)[h0]? ≠ none := by
      rw [hstep, if_pos (by have := hcomm h0; omega)]
      rw [Ne, List.getElem?_eq_none_iff]
      have := hcomm h0
      omega
    have hlen_le := List.getElem?_eq_none_iff.mp hnone
    have hlen_gt : h0 <
        (stepBy ((g.data.take (g.data.length - (g.width - c) + 1)).drop c) g.width).length := by
      by_contra hcon
      exact hlast (List.getElem?_eq_none_iff.mpr (by omega))
    have hL : (stepBy ((g.data.take (g.data.length - (g.width - c) + 1)).drop c)
        g.width).length = g.height := by omega
    refine ⟨_, rfl, hL, hfwd, ?_⟩
    intro i hi
    rw [List.getElem?_reverse (by omega), hL, hfwd (g.height - 1 - i) (by omega)]
  · intro c hcge
    rw [Grid.col_iter, if_neg (by omega)]

theorem col_iter_spec_witness :
    (Grid.from_fn 4 4 (fun x y => x + y)).col_iter 0 = some [0, 1, 2, 3] :=
  (col_iter_spec (Grid.from_fn 4 4 (fun x y => x + y)) (by decide) (by decide)).2.2.1

lemma setRange_length (l seg : List α) (s : Nat) (hs : s + seg.length ≤ l.length) :
    (setRange l s seg).length = l.length := by
  rw [setRange, List.length_append, List.length_append, List.length_take, List.length_drop]
  omega

lemma setRange_getElem? (l seg : List α) (s i : Nat) (hs : s + seg.length ≤ l.length) :
    (setRange l s seg)[i]? = if s ≤ i ∧ i < s + seg.length then seg[i - s]? else l[i]? := by
  rw [setRange]
  have htake : (l.take s).length = s := by rw [List.length_take]; omega
  have hts : (l.take s ++ seg).length = s + seg.length := by
    rw [List.length_append, htake]
  by_cases h2 : i < s + seg.length
  · rw [List.getElem?_append, hts, if_pos h2, List.getElem?_append, htake]
    by_cases h1 : i < s
    · rw [if_pos h1, List.getElem?_take, if_pos h1, if_neg (by omega)]
    · rw [if_neg h1, if_pos (by omega)]
  · rw [List.getElem?_append_right (by omega), hts, List.getElem?_drop,
        show s + seg.length + (i - (s + seg.length)) = i from by omega, if_neg (by omega)]

/-- The data buffer of `padded` after the first `k` row-copy iterations of
its loop; `paddedData g val n g.height` is the final buffer. -/
def paddedData (g : Grid α) (val : α) (n k : Nat) : List α :=
  (List.range k).foldl
    (fun acc y => setRange acc ((y + n) * (g.width + 2 * n) + n)
      ((g.data.drop (y * g.width)).take g.width))
    (List.replicate ((g.width + 2 * n) * (g.height + 2 * n)) val)

lemma padded_data_eq (g : Grid α) (val : α) (n : Nat) :
    (g.padded val n).data = paddedData g val n g.height :=
  rfl

lemma paddedData_succ (g : Grid α) (val : α) (n k : Nat) :
    paddedData g val n (k + 1) =
      setRange (paddedData g val n k) ((k + n) * (g.width + 2 * n) + n)
        ((g.data.drop (k * g.width)).take g.width) := by
  rw [paddedData, paddedData, List.range_succ, List.foldl_append, List.foldl_cons,
      List.foldl_nil]

lemma padded_seg_length (g : Grid α) (hwf : g.Wf) (k : Nat) (hk : k < g.height) :
    ((g.data.drop (k * g.width)).take g.width).length = g.width := by
  rw [List.length_take, List.length_drop, hwf]
  have h1 : (k + 1) * g.width ≤ g.height * g.width := Nat.mul_le_mul_right g.width (by omega)
  have h2 : (k + 1) * g.width = k * g.width + g.width := Nat.succ_mul k g.width
  have h3 : g.height * g.width = g.width * g.height := Nat.mul_comm g.height g.width
  omega

lemma paddedData_length (g : Grid α) (hwf : g.Wf) (val : α) (n : Nat) :
    ∀ k, k ≤ g.height →
      (paddedData g val n k).length = (g.width + 2 * n) * (g.height + 2 * n) := by
  intro k
  induction k with
  | zero => intro _; rw [paddedData]; simp [List.length_replicate]
  | succ k ih =>
    intro hk
    have hlen := ih (by omega)
    rw [paddedData_succ, setRange_length _ _ _ ?_, hlen]
    rw [hlen, padded_seg_length g hwf k (by omega)]
    have h1 : (k + n + 1) * (g.width + 2 * n) ≤ (g.height + 2 * n) * (g.width + 2 * n) :=
      Nat.mul_le_mul_right _ (by omega)
    have h2 : (k + n + 1) * (g.width + 2 * n) = (k + n) * (g.width + 2 * n) + (g.width + 2 * n) :=
      Nat.succ_mul _ _
    have h3 : (g.height + 2 * n) * (g.width + 2 * n) = (g.width + 2 * n) * (g.height + 2 * n) :=
      Nat.mul_comm _ _
    omega

lemma paddedData_getElem? (g : Grid α) (hwf : g.Wf) (val : α) (n : Nat) :
    ∀ k, k ≤ g.height → ∀ i, i < (g.width + 2 * n) * (g.height + 2 * n) →
      (paddedData g val n k)[i]? =
        if n ≤ i % (g.width + 2 * n) ∧ i % (g.width + 2 * n) < n + g.width ∧
           n ≤ i / (g.width + 2 * n) ∧ i / (g.width + 2 * n) < n + k
        then g.data[(i / (g.width + 2 * n) - n) * g.width + (i % (g.width + 2 * n) - n)]?
        else some val := by
  intro k
  induction k with
  | zero =>
    intro _ i hi
    rw [paddedData]
    simp only [List.range_zero, List.foldl_nil]
    rw [List.getElem?_replicate, if_pos hi, if_neg (by omega)]
  | succ k ih =>
    intro hk i hi
    have hW : 0 < g.width + 2 * n := by
      rcases Nat.eq_zero_or_pos (g.width + 2 * n) with h0 | h0
      · rw [h0, Nat.zero_mul] at hi
        omega
      · exact h0
    have hlen := paddedData_length g hwf val n k (by omega)
    have hseg := padded_seg_length g hwf k (by omega)
    have hs : (k + n) * (g.width + 2 * n) + n +
        ((g.data.drop (k * g.width)).take g.width).length ≤
        (paddedData g val n k).length := by
      rw [hseg, hlen]
      have h1 : (k + n + 1) * (g.width + 2 * n) ≤ (g.height + 2 * n) * (g.width + 2 * n) :=
        Nat.mul_le_mul_right _ (by omega)
      have h2 : (k + n + 1) * (g.width + 2 * n) =
          (k + n) * (g.width + 2 * n) + (g.width + 2 * n) := Nat.succ_mul _ _
      have h3 : (g.height + 2 * n) * (g.width + 2 * n) =
          (g.width + 2 * n) * (g.height + 2 * n) := Nat.mul_comm _ _
      omega
    rw [paddedData_succ, setRange_getElem? _ _ _ _ hs, hseg]
    by_cases hin : (k + n) * (g.width + 2 * n) + n ≤ i ∧
        i < (k + n) * (g.width + 2 * n) + n + g.width
    · obtain ⟨j, hj, hjw⟩ : ∃ j, i = (k + n) * (g.width + 2 * n) + n + j ∧ j < g.width :=
        ⟨i - ((k + n) * (g.width + 2 * n) + n), by omega, by omega⟩
      subst hj
      have hcm : (k + n) * (g.width + 2 * n) = (g.width + 2 * n) * (k + n) :=
        Nat.mul_comm _ _
      have hiform : (k + n) * (g.width + 2 * n) + n + j =
          (g.width + 2 * n) * (k + n) + (n + j) := by omega
      have hmod : ((k + n) * (g.width + 2 * n) + n + j) % (g.width + 2 * n) = n + j := by
        rw [hiform, Nat.mul_add_mod, Nat.mod_eq_of_lt (by omega)]
      have hdiv : ((k + n) * (g.width + 2 * n) + n + j) / (g.width + 2 * n) = k + n := by
        rw [hiform, Nat.mul_add_div hW, Nat.div_eq_of_lt (by omega), Nat.add_zero]
      rw [if_pos (by omega), hmod, hdiv, if_pos (by omega)]
      rw [List.getElem?_take, if_pos (by omega), List.getElem?_drop,
          show (k + n) * (g.width + 2 * n) + n + j - ((k + n) * (g.width + 2 * n) + n) = j
            from by omega,
          show (k + n - n) * g.width + (n + j - n) = k * g.width + j from by
            have : k + n - n = k := by omega
            rw [this]
            omega]
    · rw [if_neg hin, ih (by omega) i hi]
      have hdm := Nat.div_add_mod i (g.width + 2 * n)
      have hmlt : i % (g.width + 2 * n) < g.width + 2 * n := Nat.mod_lt i hW
      by_cases hY : i / (g.width + 2 * n) = n + k
      · rw [hY] at hdm
        have hcm : (k + n) * (g.width + 2 * n) = (g.width + 2 * n) * (n + k) := by
          rw [Nat.mul_comm]
          ring_nf
        rw [if_neg (by omega), if_neg (by omega)]
      · exact if_congr (by omega) rfl rfl

/-- C4: `padded(val, n)` on a well-formed `w × h` grid returns a new grid of
size `(w + 2n) × (h + 2n)` whose inner `w × h` subregion at offset `(n, n)`
equals the source grid cell-for-cell, and whose every other cell equals
`val`; the source grid itself is untouched (the model is pure). -/
theorem padded_spec (g : Grid α) (hwf : g.Wf) (val : α) (n : Nat) :
    (g.padded val n).width = g.width + 2 * n ∧
    (g.padded val n).height = g.height + 2 * n ∧
    (∀ x y, x < g.width → y < g.height →
      (g.padded val n).get (x + n, y + n) = g.get (x, y)) ∧
    (∀ x y, x < g.width + 2 * n → y < g.height + 2 * n →
      ¬(n ≤ x ∧ x < n + g.width ∧ n ≤ y ∧ y < n + g.height) →
      (g.padded val n).get (x, y) = some val) := by
  have hWeq : (g.padded val n).width = g.width + 2 * n := rfl
  have hHeq : (g.padded val n).height = g.height + 2 * n := rfl
  have hibound : ∀ x y, x < g.width + 2 * n → y < g.height + 2 * n →
      (g.width + 2 * n) * y + x < (g.width + 2 * n) * (g.height + 2 * n) := by
    intro x y hx hy
    have h1 : (g.width + 2 * n) * (y + 1) = (g.width + 2 * n) * y + (g.width + 2 * n) :=
      Nat.mul_succ _ _
    have h2 : (g.width + 2 * n) * (y + 1) ≤ (g.width + 2 * n) * (g.height + 2 * n) :=
      Nat.mul_le_mul_left _ (by omega)
    omega
  have hW : ∀ x y, x < g.width + 2 * n → y < g.height + 2 * n → 0 < g.width + 2 * n := by
    intro x y hx hy
    omega
  have hdecode : ∀ x y, x < g.width + 2 * n →
      ((g.width + 2 * n) * y + x) % (g.width + 2 * n) = x ∧
      ((g.width + 2 * n) * y + x) / (g.width + 2 * n) = y := by
    intro x y hx
    constructor
    · rw [Nat.mul_add_mod, Nat.mod_eq_of_lt hx]
    · rw [Nat.mul_add_div (by omega), Nat.div_eq_of_lt hx, Nat.add_zero]
  refine ⟨hWeq, hHeq, ?_, ?_⟩
  · intro x y hx hy
    have hxW : x + n < g.width + 2 * n := by omega
    have hyH : y + n < g.height + 2 * n := by omega
    rw [Grid.get_pos _ _ _ (by rw [hWeq]; omega) (by rw [hHeq]; omega)]
    rw [Grid.get_pos g x y hx hy]
    have hd := hdecode (x + n) (y + n) hxW
    rw [show (g.padded val n).width = g.width + 2 * n from rfl]
    rw [padded_data_eq,
        paddedData_getElem? g hwf val n g.height (Nat.le_refl _) _
          (hibound (x + n) (y + n) hxW hyH),
        hd.1, hd.2, if_pos (by omega)]
    rw [show (y + n - n) * g.width + (x + n - n) = g.width * y + x from by
      have h1 : y + n - n = y := by omega
      have h2 : x + n - n = x := by omega
      rw [h1, h2, Nat.mul_comm]]
  · intro x y hx hy hout
    rw [Grid.get_pos _ _ _ (by rw [hWeq]; omega) (by rw [hHeq]; omega)]
    have hd := hdecode x y hx
    rw [show (g.padded val n).width = g.width + 2 * n from rfl]
    rw [padded_data_eq,
        paddedData_getElem? g hwf val n g.height (Nat.le_refl _) _ (hibound x y hx hy),
        hd.1, hd.2, if_neg (by omega)]

theorem padded_spec_witness :
    ((Grid.mk [1, 2, 3, 4] 2 2).padded 9 1).get (2, 1) = some 2 ∧
    ((Grid.mk [1, 2, 3, 4] 2 2).padded 9 1).get (0, 0) = some 9 :=
  ⟨((padded_spec (Grid.mk [1, 2, 3, 4] 2 2) (by decide) 9 1).2.2.1 1 0 (by decide)
      (by decide)).trans (by decide),
   (padded_spec (Grid.mk [1, 2, 3, 4] 2 2) (by decide) 9 1).2.2.2 0 0 (by decide) (by decide)
      (by decide)⟩

lemma parseLine_some (conv : Char → Option α) :
    ∀ t : List Char, (∀ c ∈ t, (conv c).isSome) →
      ∃ vs, parseLine conv t = some vs ∧ vs.length = t.length := by
  intro t
  induction t with
  | nil => intro _; exact ⟨[], rfl, rfl⟩
  | cons c cs ih =>
    intro hall
    obtain ⟨v, hv⟩ := Option.isSome_iff_exists.mp (hall c (by simp))
    obtain ⟨vs, hvs, hlen⟩ := ih (fun c hc => hall c (by simp [hc]))
    refine ⟨v :: vs, ?_, by simp [hlen]⟩
    rw [parseLine, hv, hvs]
    rfl

lemma parseLine_none (conv : Char → Option α) :
    ∀ t : List Char, ¬(∀ c ∈ t, (conv c).isSome) → parseLine conv t = none := by
  intro t
  induction t with
  | nil => intro hcon; exact absurd (by simp) hcon
  | cons c cs ih =>
    intro hcon
    rw [parseLine]
    rcases hc : conv c with _ | v
    · rfl
    · rw [ih (fun hall => hcon (by
        intro c' hc'
        rcases List.mem_cons.mp hc' with rfl | hmem
        · rw [hc]; rfl
        · exact hall c' hmem))]
      rfl

lemma utf8Len_eq_length (t : List Char) (h : ∀ c ∈ t, c.utf8Size = 1) :
    utf8Len t = t.length := by
  induction t with
  | nil => rfl
  | cons c cs ih =>
    rw [utf8Len, List.map_cons, List.sum_cons, h c (by simp), List.length_cons]
    rw [utf8Len] at ih
    rw [ih (fun c hc => h c (by simp [hc]))]
    omega

lemma nonBlankLines_cons_blank (line : List Char) (input : List (List Char))
    (h : trimChars line = []) : nonBlankLines (line :: input) = nonBlankLines input := by
  rw [nonBlankLines, List.map_cons, List.filter_cons, h]
  rw [if_neg (by simp)]
  rfl

lemma nonBlankLines_cons_nonblank (line : List Char) (input : List (List Char))
    (h : trimChars line ≠ []) :
    nonBlankLines (line :: input) = trimChars line :: nonBlankLines input := by
  rw [nonBlankLines, List.map_cons, List.filter_cons, if_pos (by simpa using h)]
  rfl

/-- The success condition of `load_grid` for a given expected row width:
every (trimmed, non-blank) row has exactly that many characters and every
character converts. -/
def rowsGood (conv : Char → Option α) (w : Nat) (ts : List (List Char)) : Prop :=
  ∀ t ∈ ts, t.length = w ∧ ∀ c ∈ t, (conv c).isSome

lemma loadLoop_some_spec (conv : Char → Option α) (w : Nat) (hw : 1 ≤ w) :
    ∀ (rest : List (List Char)), (∀ l ∈ rest, ∀ c ∈ trimChars l, c.utf8Size = 1) →
      ∀ (data : List α) (m : Nat), data.length = w * m →
      (rowsGood conv w (nonBlankLines rest) →
        ∃ g, loadLoop conv rest data (some w) = .ok g ∧
          g.width = w ∧ g.height = m + (nonBlankLines rest).length) ∧
      (¬rowsGood conv w (nonBlankLines rest) →
        loadLoop conv rest data (some w) = .err) := by
  intro rest
  induction rest with
  | nil =>
    intro _ data m hdata
    have hfd : Grid.from_data data w = some { data := data, width := w, height := m } := by
      rw [Grid.from_data, if_neg (by omega), if_pos (by rw [hdata]; exact Nat.mul_mod_right w m)]
      have : data.length / w = m := by rw [hdata]; exact Nat.mul_div_cancel_left m (by omega)
      rw [this]
    constructor
    · intro _
      refine ⟨{ data := data, width := w, height := m }, ?_, rfl, by simp [nonBlankLines]⟩
      rw [loadLoop]
      rw [show (some w).getD 0 = w from rfl, hfd]
    · intro hbad
      exact absurd (by intro t ht; simp [nonBlankLines] at ht) hbad
  | cons line rest ih =>
    intro hascii data m hdata
    have hascii' : ∀ l ∈ rest, ∀ c ∈ trimChars l, c.utf8Size = 1 :=
      fun l hl => hascii l (by simp [hl])
    have hline : ∀ c ∈ trimChars line, c.utf8Size = 1 := hascii line (by simp)
    by_cases hblank : trimChars line = []
    · have hred : loadLoop conv (line :: rest) data (some w) = loadLoop conv rest data (some w) := by
        rw [loadLoop]
        simp only [hblank, List.isEmpty_nil, if_true]
      rw [hred, nonBlankLines_cons_blank line rest hblank]
      exact ih hascii' data m hdata
    · have hlen8 : utf8Len (trimChars line) = (trimChars line).length :=
        utf8Len_eq_length _ hline
      rw [nonBlankLines_cons_nonblank line rest hblank]
      by_cases hwt : (trimChars line).length = w
      · by_cases hconv : ∀ c ∈ trimChars line, (conv c).isSome
        · obtain ⟨vs, hvs, hvslen⟩ := parseLine_some conv (trimChars line) hconv
          have hred : loadLoop conv (line :: rest) data (some w) =
              loadLoop conv rest (data ++ vs) (some w) := by
            rw [loadLoop]
            simp only [List.isEmpty_eq_true, hblank, if_false, hlen8, hwt, if_true, hvs]
          have hdata' : (data ++ vs).length = w * (m + 1) := by
            rw [List.length_append, hdata, hvslen, hwt, Nat.mul_succ]
          have ihx := ih hascii' (data ++ vs) (m + 1) hdata'
          constructor
          · intro hgood
            obtain ⟨g, hg, hgw, hgh⟩ := ihx.1 (fun t ht => hgood t (by simp [ht]))
            refine ⟨g, by rw [hred]; exact hg, hgw, ?_⟩
            rw [hgh, List.length_cons]
            omega
          · intro hbad
            rw [hred]
            refine ihx.2 (fun hgood => hbad ?_)
            intro t ht
            rcases List.mem_cons.mp ht with rfl | hmem
            · exact ⟨hwt, hconv⟩
            · exact hgood t hmem
        · have hred : loadLoop conv (line :: rest) data (some w) = .err := by
            rw [loadLoop]
            simp only [List.isEmpty_eq_true, hblank, if_false, hlen8, hwt, if_true,
              parseLine_none conv (trimChars line) hconv]
          constructor
          · intro hgood
            exact absurd (hgood (trimChars line) (by simp)).2 hconv
          · intro _
            exact hred
      · have hred : loadLoop conv (line :: rest) data (some w) = .err := by
          rw [loadLoop]
          simp only [List.isEmpty_eq_true, hblank, if_false, hlen8]
          rw [if_neg (by omega)]
        constructor
        · intro hgood
          exact absurd (hgood (trimChars line) (by simp)).1 hwt
        · intro _
          exact hred

lemma loadLoop_none_spec (conv : Char → Option α) :
    ∀ (input : List (List Char)), (∀ l ∈ input, ∀ c ∈ trimChars l, c.utf8Size = 1) →
      nonBlankLines input ≠ [] →
      (rowsGood conv ((nonBlankLines input).headD []).length (nonBlankLines input) →
        ∃ g, loadLoop conv input [] none = .ok g ∧
          g.width = ((nonBlankLines input).headD []).length ∧
          g.height = (nonBlankLines input).length) ∧
      (¬rowsGood conv ((nonBlankLines input).headD []).length (nonBlankLines input) →
        loadLoop conv input [] none = .err) := by
  intro input
  induction input with
  | nil => intro _ hnb; exact absurd rfl hnb
  | cons line rest ih =>
    intro hascii hnb
    have hascii' : ∀ l ∈ rest, ∀ c ∈ trimChars l, c.utf8Size = 1 :=
      fun l hl => hascii l (by simp [hl])
    have hline : ∀ c ∈ trimChars line, c.utf8Size = 1 := hascii line (by simp)
    by_cases hblank : trimChars line = []
    · have hred : loadLoop conv (line :: rest) [] none = loadLoop conv rest [] none := by
        rw [loadLoop]
        simp only [hblank, List.isEmpty_nil, if_true]
      rw [nonBlankLines_cons_blank line rest hblank] at hnb ⊢
      rw [hred]
      exact ih hascii' hnb
    · have hlen8 : utf8Len (trimChars line) = (trimChars line).length :=
        utf8Len_eq_length _ hline
    
      have hw : 1 ≤ (trimChars line).length := by
        rcases htr : trimChars line with _ | ⟨c, cs⟩
        · exact absurd htr hblank
        · simp
      rw [nonBlankLines_cons_nonblank line rest hblank]
      simp only [List.headD_cons, List.length_cons]
      by_cases hconv : ∀ c ∈ trimChars line, (conv c).isSome
      · obtain ⟨vs, hvs, hvslen⟩ := parseLine_some conv (trimChars line) hconv
        have hred : loadLoop conv (line :: rest) [] none =
            loadLoop conv rest vs (some (trimChars line).length) := by
          rw [loadLoop]
          simp only [List.isEmpty_eq_true, hblank, if_false, hvs, hlen8]
          rw [List.nil_append]
        have hspec := loadLoop_some_spec conv (trimChars line).length hw rest hascii' vs 1
          (by rw [hvslen]; ring)
        constructor
        · intro hgood
          obtain ⟨g, hg, hgw, hgh⟩ := hspec.1 (fun u hu => hgood u (by simp [hu]))
          refine ⟨g, by rw [hred]; exact hg, hgw, ?_⟩
          rw [hgh]
          omega
        · intro hbad
          rw [hred]
          apply hspec.2
          intro hgood
          apply hbad
          intro u hu
          rcases List.mem_cons.mp hu with rfl | hmem
          · exact ⟨rfl, hconv⟩
          · exact hgood u hmem
      · have hred : loadLoop conv (line :: rest) [] none = .err := by
          rw [loadLoop]
          simp only [List.isEmpty_eq_true, hblank, if_false,
            parseLine_none conv (trimChars line) hconv]
        constructor
        · intro hgood
          exact absurd (hgood (trimChars line) (by simp)).2 hconv
        · intro _
          exact hred

/-- C9 counterexample: an input whose two non-blank lines have different
character counts (2 and 3) but equal UTF-8 byte lengths (3 and 3, the first
line starting with the two-byte character é).  The claim promises the
differing character count is surfaced as a recoverable error, but the code
compares byte lengths, accepts both rows, and then panics in
`Grid::from_data` because the 5 accumulated cells are not divisible by the
byte width 3. -/
theorem load_grid_bytelen_counterexample :
    (trimChars ['é', 'a']).length = 2 ∧ (trimChars ['a', 'a', 'a']).length = 3 ∧
    load_grid (fun c : Char => some c) [['é', 'a'], ['a', 'a', 'a']] = .panic := by
  refine ⟨by decide, by decide, by decide⟩

/-- C9 (amended): for every input text with at least one non-blank line in
which every character of every trimmed line is a single-UTF-8-byte
character (so character count and byte length coincide), `load_grid`
surfaces a failed per-character conversion or a non-blank line whose
character count differs from the first non-blank line's as a recoverable
error value, never as a panic; on success the grid's height equals the
count of non-blank lines and its width the common character count.  (With
multi-byte characters the code compares UTF-8 byte lengths instead of
character counts and can panic, see the counterexample.) -/
theorem load_grid_spec (conv : Char → Option α) (input : List (List Char))
    (hascii : ∀ l ∈ input, ∀ c ∈ trimChars l, c.utf8Size = 1)
    (hnb : nonBlankLines input ≠ []) :
    load_grid conv input ≠ .panic ∧
    (rowsGood conv ((nonBlankLines input).headD []).length (nonBlankLines input) →
      ∃ g, load_grid conv input = .ok g ∧
        g.width = ((nonBlankLines input).headD []).length ∧
        g.height = (nonBlankLines input).length) ∧
    (¬rowsGood conv ((nonBlankLines input).headD []).length (nonBlankLines input) →
      load_grid conv input = .err) := by
  have h := loadLoop_none_spec conv input hascii hnb
  refine ⟨?_, h.1, h.2⟩
  by_cases hgood : rowsGood conv ((nonBlankLines input).headD []).length (nonBlankLines input)
  · obtain ⟨g, hg, -, -⟩ := h.1 hgood
    rw [load_grid, hg]
    simp
  · rw [load_grid, h.2 hgood]
    simp

theorem load_grid_spec_witness :
    load_grid (fun c : Char => some c) [['a', 'b'], ['c']] = LoadResult.err ∧
    load_grid (fun c : Char => some c) [['a', 'b']] ≠ LoadResult.panic := by
  constructor
  · refine (load_grid_spec (fun c : Char => some c) [['a', 'b'], ['c']]
      (by decide) (by decide)).2.2 ?_
    intro hgood
    have h := (hgood ['c'] (by decide)).1
    exact absurd h (by decide)
  · exact (load_grid_spec (fun c : Char => some c) [['a', 'b']] (by decide) (by decide)).1

/-- C10: on an input whose every line is blank (including the empty input),
`load_grid` neither returns an empty grid nor a recoverable error: no line
sets the width, `width.unwrap_or(0)` passes width 0 to `Grid::from_data`,
and its divisibility check `data.len() % 0` is a fatal remainder by
zero. -/
theorem load_grid_all_blank_panics (conv : Char → Option α) (input : List (List Char))
    (hall : ∀ l ∈ input, trimChars l = []) :
    load_grid conv input = .panic := by
  rw [load_grid]
  revert hall
  induction input with
  | nil => intro _; rfl
  | cons line rest ih =>
    intro hall
    rw [loadLoop]
    simp only [hall line (by simp), List.isEmpty_nil, if_true]
    exact ih (fun l hl => hall l (by simp [hl]))

theorem load_grid_all_blank_panics_witness :
    load_grid (fun c : Char => some c) [[' ', '\t'], []] = LoadResult.panic :=
  load_grid_all_blank_panics (fun c : Char => some c) [[' ', '\t'], []] (by decide)

/-- C7: the functor law `g.map(f).map(f2) = g.map(f2 ∘ f)` holds
cell-for-cell (here as equality of the whole grids), and `map` preserves
the width and height exactly. -/
theorem map_map_spec (g : Grid α) (f : α → β) (f2 : β → γ) :
    (g.map f).map f2 = g.map (fun v => f2 (f v)) ∧
    (g.map f).width = g.width ∧ (g.map f).height = g.height := by
  refine ⟨?_, rfl, rfl⟩
  simp only [Grid.map, List.map_map]
  rfl
